import Mathlib

/-!
Verification of the EventHub validation and credential-protection core.

The Python sources `validation.py` and `encryption.py` are shallowly embedded
below.  Strings are Lean `String`s (lists of characters); machine bytes are
`Nat` values kept below 256; Python dictionaries are modelled as partial maps
`String → Option String`; fallible operations return `Option`/`Except`.

Modelling conventions, stated once here and at each definition:
* `unicodedata.normalize("NFKC", ·)` is modelled as the identity (the claims
  are settled on ASCII-normalised inputs, where NFKC is the identity);
  `str.strip()` is modelled by dropping ASCII whitespace at both ends.
* Python `re` character classes (`\d`, `\w`, `\s`, ranges) are modelled over
  their ASCII/Latin-1 meaning, exactly following each source pattern.
* `datetime.now()`, `os.urandom`, and the cipher's random nonce are made
  explicit parameters: randomness and the clock are inputs of the model.
* The external cryptographic primitives (pycryptodome's AES in EAX mode,
  `hashlib.pbkdf2_hmac`) are not part of this repository; they are modelled
  from the specification as idealized primitives (see each definition).
-/

namespace EventHub

/-! ## Bytes and hex encoding (Python `bytes.hex` / `bytes.fromhex`) -/

/-- Hex digit character for a value below 16, lowercase as Python's
`bytes.hex()` produces. -/
def hexDigitChar (n : Nat) : Char :=
  if n < 10 then Char.ofNat (48 + n) else Char.ofNat (87 + n)

/-- Value of a hex digit character; accepts both cases as Python's
`bytes.fromhex` does. -/
def hexCharVal (c : Char) : Option Nat :=
  if '0' ≤ c && c ≤ '9' then some (c.toNat - 48)
  else if 'a' ≤ c && c ≤ 'f' then some (c.toNat - 87)
  else if 'A' ≤ c && c ≤ 'F' then some (c.toNat - 55)
  else none

/-- Two-character hex rendering of one byte. -/
def byteToHex (b : Nat) : List Char := [hexDigitChar (b / 16), hexDigitChar (b % 16)]

/-- Python `bytes.hex()`: lowercase hex string of a byte sequence. -/
def bytesHex (bs : List Nat) : String := ⟨(bs.map byteToHex).flatten⟩

/-- Parse a character list as consecutive hex-digit pairs. -/
def parseHexPairs : List Char → Option (List Nat)
  | [] => some []
  | [_] => none
  | c1 :: c2 :: rest =>
    match hexCharVal c1, hexCharVal c2, parseHexPairs rest with
    | some h, some l, some bs => some ((16 * h + l) :: bs)
    | _, _, _ => none

/-- Python `bytes.fromhex`: `none` models the `ValueError` raised on
malformed hex input. -/
def bytes_fromhex (s : String) : Option (List Nat) := parseHexPairs s.data

/-! ## Idealized AES-EAX cipher (`encryption.py`) -/

/-- Errors raised by the cryptographic layer: `valueError` for malformed hex
(`bytes.fromhex`), `macCheckFailed` for the authentication failure raised by
`decrypt_and_verify`. -/
inductive CryptoError where
  | valueError : CryptoError
  | macCheckFailed : CryptoError
deriving DecidableEq, Repr

/-- Deterministic mixing of a byte list into a seed, used by the modelled
keystream. -/
def mixKey (l : List Nat) : Nat := l.foldl (fun a b => a * 131 + b + 7) 3

/-- Modelled from the spec: pycryptodome's `AES.new(clave, AES.MODE_EAX)` is
not part of this repository.  Its CTR keystream is modelled as a concrete
deterministic byte stream derived from key, nonce and position. -/
def eaxKeystream (clave nonce : List Nat) (i : Nat) : Nat :=
  (mixKey clave + 97 * mixKey nonce + 59 * i + 11) % 256

/-- Modelled from the spec: EAX-mode encryption and decryption both XOR the
data with the key/nonce-derived keystream (`cipher.encrypt` /
`cipher.decrypt`). -/
def ctrXor (clave nonce : List Nat) : Nat → List Nat → List Nat
  | _, [] => []
  | i, b :: bs => (b ^^^ eaxKeystream clave nonce i) :: ctrXor clave nonce (i + 1) bs

/-- Modelled from the spec: the EAX authentication tag is "bound to both
ciphertext and (implicitly) the nonce" under the key; the ideal-MAC model
makes that binding injective, which is the spec's working assumption when it
demands that any bit flip fails authentication. -/
def eaxTag (clave nonce ct : List Nat) : List Nat := clave ++ nonce ++ ct

/-- Source `encrypt_aes(texto, clave)` from `encryption.py`.  The plaintext is
taken as its UTF-8 byte sequence (`texto.encode()`); the random
`cipher.nonce` is an explicit argument.  Returns the hex strings
`(texto_cifrado_hex, nonce_hex, tag_hex)`. -/
def encrypt_aes (texto clave nonce : List Nat) : String × String × String :=
  (bytesHex (ctrXor clave nonce 0 texto),
   bytesHex nonce,
   bytesHex (eaxTag clave nonce (ctrXor clave nonce 0 texto)))

/-- Source `decrypt_aes(texto_cifrado_hex, nonce_hex, tag_hex, clave)` from
`encryption.py`: hex-decode the three fields (`ValueError` on bad hex),
rebuild the cipher with the supplied nonce, and `decrypt_and_verify`: the tag
is recomputed over the ciphertext and compared before any plaintext is
returned; on mismatch the MAC failure is raised.  The returned plaintext is
its byte sequence (`.decode()` is the UTF-8 round-trip). -/
def decrypt_aes (texto_cifrado_hex nonce_hex tag_hex : String) (clave : List Nat) :
    Except CryptoError (List Nat) :=
  match bytes_fromhex texto_cifrado_hex with
  | none => .error .valueError
  | some ct =>
    match bytes_fromhex nonce_hex with
    | none => .error .valueError
    | some nonce =>
      match bytes_fromhex tag_hex with
      | none => .error .valueError
      | some tag =>
        if eaxTag clave nonce ct = tag then .ok (ctrXor clave nonce 0 ct)
        else .error .macCheckFailed

/-- Flip bit `j` of the byte at position `i` of a byte sequence. -/
def flipBit (l : List Nat) (i j : Nat) : List Nat := l.set i (l.getD i 0 ^^^ 2 ^ j)

/-! ## Idealized PBKDF2 (`encryption.py`) -/

/-- Injective byte encoding of one natural number: its base-255 digits
followed by a 255 separator. -/
def kdfEncodeNat (n : Nat) : List Nat := Nat.digits 255 n ++ [255]

/-- Injective byte encoding of a list of natural numbers. -/
def kdfEncodeList : List Nat → List Nat
  | [] => []
  | n :: l => kdfEncodeNat n ++ kdfEncodeList l

/-- Modelled from the spec: `hashlib.pbkdf2_hmac('sha256', password, salt,
iterations, dklen)` is not part of this repository.  It is modelled as an
ideal key-derivation function: deterministic in all inputs and injective in
the password for a fixed salt and iteration count (the spec's collision-free
reading of `verify_password(p2, hash_password(p))` being false for `p2 ≠ p`).
The 32-byte truncation of the real primitive is not modelled. -/
def pbkdf2_hmac_sha256 (password salt : List Nat) (iterations dklen : Nat) : List Nat :=
  kdfEncodeList (iterations :: dklen :: salt.length :: (salt ++ password))

/-- Stored credential dictionary produced by `hash_password`. -/
structure StoredData where
  algorithm : String
  iterations : Nat
  salt : String
  hash : String
deriving DecidableEq, Repr

/-- Source `hash_password(password)` from `encryption.py`: the random 16-byte
salt (`os.urandom(16)`) is an explicit argument; derive a key with
PBKDF2-HMAC-SHA256 at 200000 iterations and package everything hex-encoded.
The password is taken as its UTF-8 byte sequence (`password.encode()`). -/
def hash_password (password salt : List Nat) : StoredData :=
  { algorithm := "pbkdf2_sha256",
    iterations := 200000,
    salt := bytesHex salt,
    hash := bytesHex (pbkdf2_hmac_sha256 password salt 200000 32) }

/-- Source `verify_password(password, stored_data)` from `encryption.py`:
hex-decode the stored salt (`none` models the `ValueError` on bad hex),
recompute the derivation with the stored salt and iteration count, and
compare to the stored hash.  `hmac.compare_digest` is modelled as string
equality (its timing behaviour is outside the functional model). -/
def verify_password (password : List Nat) (stored_data : StoredData) : Option Bool :=
  match bytes_fromhex stored_data.salt with
  | none => none
  | some salt =>
    some (bytesHex (pbkdf2_hmac_sha256 password salt stored_data.iterations 32)
            == stored_data.hash)

/-! ## Normalisation and character classes (`validation.py`) -/

/-- Python whitespace for `str.strip`, `str.split` and the regex class `\s`
(ASCII portion). -/
def pyWs (c : Char) : Bool :=
  c = ' ' || c = '\t' || c = '\n' || c = '\r' || c = '\x0b' || c = '\x0c'

/-- Strip leading and trailing whitespace from a character list. -/
def stripWs (l : List Char) : List Char :=
  ((l.dropWhile pyWs).reverse.dropWhile pyWs).reverse

/-- Source `normalize_basic(value)` from `validation.py`: NFKC-normalize and
strip.  NFKC is modelled as the identity (the identity on ASCII input);
`str.strip()` drops whitespace at both ends. -/
def normalize_basic (value : String) : String := ⟨stripWs value.data⟩

/-- Python `str.lower()`, modelled on ASCII letters. -/
def lowerChar (c : Char) : Char :=
  if 'A' ≤ c && c ≤ 'Z' then Char.ofNat (c.toNat + 32) else c

/-- Lowercasing of a whole string (Python `str.lower()`). -/
def pyLower (s : String) : String := ⟨s.data.map lowerChar⟩

/-- Python `str.isdigit()` (ASCII scope): nonempty and all digits. -/
def pyIsdigit (s : String) : Bool := !s.data.isEmpty && s.data.all Char.isDigit

/-- Collapse each maximal whitespace run to a single space: the effect of
`re.sub(r"\s+", " ", ·)` and, on stripped input, of `" ".join(s.split())`. -/
def collapseWs : List Char → List Char
  | [] => []
  | [c] => if pyWs c then [' '] else [c]
  | c1 :: c2 :: rest =>
    if pyWs c1 && pyWs c2 then collapseWs (c2 :: rest)
    else if pyWs c1 then ' ' :: collapseWs (c2 :: rest)
    else c1 :: collapseWs (c2 :: rest)

/-- Numeric value of a digit character. -/
def digitVal (c : Char) : Nat := c.toNat - 48

/-- Split a character list at the first occurrence of `sep`:
`some (before, after)`, or `none` when `sep` does not occur. -/
def splitAtFirst (sep : Char) : List Char → Option (List Char × List Char)
  | [] => none
  | c :: cs =>
    if c = sep then some ([], cs)
    else
      match splitAtFirst sep cs with
      | none => none
      | some (a, b) => some (c :: a, b)

/-! ## Luhn checksum and card number (`validation.py`) -/

/-- Luhn contribution of the digit at (0-based) position `i` from the right:
every second digit is doubled, and 9 subtracted when the double exceeds 9. -/
def luhnAddend (i d : Nat) : Nat :=
  if i % 2 = 1 then (if 2 * d > 9 then 2 * d - 9 else 2 * d) else d

/-- Luhn checksum of a digit list given in right-to-left order, starting at
position `i`. -/
def luhnChecksum : Nat → List Nat → Nat
  | _, [] => 0
  | i, d :: ds => luhnAddend i d + luhnChecksum (i + 1) ds

/-- Source `luhn_is_valid(number)` from `validation.py`: reject empty or
non-digit input, then sum the addends right-to-left and test mod 10. -/
def luhn_is_valid (number : String) : Bool :=
  if !pyIsdigit number then false
  else luhnChecksum 0 (number.data.map digitVal).reverse % 10 = 0

/-- Source `validate_card_number(card_number)` from `validation.py`:
normalize, drop every non-digit (`re.sub(r"[^0-9]", "", ·)`), require the
Luhn checksum, then digits-only with length 13 to 19. -/
def validate_card_number (card_number : String) : String × String :=
  let card : String := ⟨(normalize_basic card_number).data.filter Char.isDigit⟩
  if !luhn_is_valid card then ("", "Invalid card number by Luhn")
  else if pyIsdigit card && 13 ≤ card.length && card.length ≤ 19 then (card, "")
  else ("", "Only digits allowed, please retype your card number")

/-! ## Expiry date (`validation.py`) -/

/-- Month alternative of CPython's `%m` directive, the regex
`1[0-2]|0[1-9]|[1-9]`: one or two digits denoting 1 to 12. -/
def monthOf : List Char → Option Nat
  | [c] => if '1' ≤ c && c ≤ '9' then some (digitVal c) else none
  | [c1, c2] =>
    if c1 = '0' && ('1' ≤ c2 && c2 ≤ '9') then some (digitVal c2)
    else if c1 = '1' && ('0' ≤ c2 && c2 ≤ '2') then some (10 + digitVal c2)
    else none
  | _ => none

/-- Year alternative of CPython's `%y` directive, the regex `\d\d`, with the
POSIX pivot: values 0 to 68 denote 2000 to 2068, values 69 to 99 denote 1969
to 1999. -/
def yearOf : List Char → Option Nat
  | [a, b] =>
    if a.isDigit && b.isDigit then
      let y2 := 10 * digitVal a + digitVal b
      some (if y2 ≤ 68 then 2000 + y2 else 1900 + y2)
    else none
  | _ => none

/-- Modelled from Python's `datetime.strptime(s, '%m/%y')` (standard library,
not part of this repository): full-match of `(1[0-2]|0[1-9]|[1-9])/(\d\d)`
with the two-digit-year pivot; `none` models the `ValueError`. -/
def strptime_m_y (s : String) : Option (Nat × Nat) :=
  match splitAtFirst '/' s.data with
  | none => none
  | some (pre, post) =>
    match monthOf pre, yearOf post with
    | some m, some y => some (m, y)
    | _, _ => none

/-- Source pattern `EXP_RE` from `validation.py`, the strict MM/YY shape
`^(0[1-9]|1[0-2])\/(\d{2})$` (a module-level pattern the validator itself
does not consult). -/
def EXP_RE_match (s : String) : Bool :=
  match s.data with
  | [m1, m2, '/', y1, y2] =>
    ((m1 = '0' && ('1' ≤ m2 && m2 ≤ '9')) || (m1 = '1' && ('0' ≤ m2 && m2 ≤ '2')))
      && y1.isDigit && y2.isDigit
  | _ => false

/-- Source `validate_exp_date(exp_date)` from `validation.py`: normalize,
parse with `strptime('%m/%y')` (format error on failure), then compare with
`datetime.now()` — here the explicit current year and month — and report a
strictly earlier year/month as expired.  The clean component is the empty
string on every path. -/
def validate_exp_date (exp_date : String) (now_year now_month : Nat) : String × String :=
  match strptime_m_y (normalize_basic exp_date) with
  | none => ("", "Please use MM/YY format")
  | some (m, y) =>
    if y < now_year || (y = now_year && m < now_month) then
      ("", "Out of date, use another card.")
    else ("", "")

/-! ## CVV, billing email, name on card (`validation.py`) -/

/-- Source `validate_cvv(cvv)` from `validation.py`: 3 or 4 digits; the clean
value is the empty string on both paths. -/
def validate_cvv (cvv : String) : String × String :=
  let c := normalize_basic cvv
  if pyIsdigit c && (c.length = 3 || c.length = 4) then ("", "")
  else ("", "Invalid CVV")

/-- Lowercase letter or digit, the class `[a-z0-9]`. -/
def isLowerOrDigit (c : Char) : Bool := ('a' ≤ c && c ≤ 'z') || c.isDigit

/-- Word character, the regex class `\w` (ASCII scope). -/
def isWordChar (c : Char) : Bool := c.isAlpha || c.isDigit || c = '_'

/-- Local part of the billing-email pattern, `[a-z0-9]+[\._]?[a-z0-9]+`:
either all lowercase/digits of length at least 2, or exactly one `.`/`_`
separator strictly inside lowercase/digit runs. -/
def billingLocalOk (l : List Char) : Bool :=
  (2 ≤ l.length && l.all isLowerOrDigit) ||
  (List.range l.length).any (fun p =>
    (l.getD p ' ' = '.' || l.getD p ' ' = '_') && 1 ≤ p && p + 2 ≤ l.length &&
    (l.eraseIdx p).all isLowerOrDigit)

/-- Domain part of the billing-email pattern, `\w+[.]\w{2,3}$`. -/
def billingDomainOk (rest : List Char) : Bool :=
  match splitAtFirst '.' rest with
  | none => false
  | some (w1, w2) =>
    !w1.isEmpty && w1.all isWordChar && w2.all isWordChar
      && (w2.length = 2 || w2.length = 3)

/-- Matcher for the source pattern
`^[a-z0-9]+[\._]?[a-z0-9]+[@]\w+[.]\w{2,3}$` used by
`validate_billing_email`. -/
def billingEmailMatch (l : List Char) : Bool :=
  match splitAtFirst '@' l with
  | none => false
  | some (lc, rest) => billingLocalOk lc && billingDomainOk rest

/-- Source `validate_billing_email(billing_email)` from `validation.py`:
normalize and lowercase, reject over 254 characters, then match the local
pattern. -/
def validate_billing_email (billing_email : String) : String × String :=
  let e := pyLower (normalize_basic billing_email)
  if 254 < e.length then ("", "Too long")
  else if billingEmailMatch e.data then (e, "")
  else ("", "Invalid email format")

/-- Character class `[a-zA-ZÀ-ÿñÑ\s'-]` of the name-on-card pattern:
ASCII letters, Latin-1 letters U+00C0 to U+00FF, whitespace, apostrophe,
hyphen. -/
def nameCardChar (c : Char) : Bool :=
  c.isAlpha || (0xC0 ≤ c.toNat && c.toNat ≤ 0xFF) || pyWs c || c = '\'' || c = '-'

/-- Source `validate_name_on_card(name_on_card)` from `validation.py`:
normalize, collapse whitespace runs (`" ".join(s.split())` on stripped
input), length 2 to 60, then the allowed-character pattern. -/
def validate_name_on_card (name_on_card : String) : String × String :=
  let n : String := ⟨collapseWs (normalize_basic name_on_card).data⟩
  if n.length < 2 || 60 < n.length then ("", "Name must be have only strings")
  else if !n.data.isEmpty && n.data.all nameCardChar then (n, "")
  else ("", "Invalid name format.")

/-! ## Registration-side field validators (`validation.py`) -/

/-- Character class of `NAME_ALLOWED_RE`,
`[A-Za-zÀ-ÖØ-öø-ÿ'\- ]`: ASCII letters, the three accented Latin-1 letter
ranges, apostrophe, hyphen, space. -/
def nameAllowedChar (c : Char) : Bool :=
  c.isAlpha || (0xC0 ≤ c.toNat && c.toNat ≤ 0xD6) || (0xD8 ≤ c.toNat && c.toNat ≤ 0xF6)
    || (0xF8 ≤ c.toNat && c.toNat ≤ 0xFF) || c = '\'' || c = '-' || c = ' '

/-- Source `validate_full_name(name)` from `validation.py`: normalize,
collapse whitespace runs, require nonempty, length 2 to 60, then
`NAME_ALLOWED_RE`. -/
def validate_full_name (name : String) : String × String :=
  let n : String := ⟨collapseWs (normalize_basic name).data⟩
  if n == "" then ("", "Full name is required")
  else if n.length < 2 || 60 < n.length then ("", "Full name must be between 2 and 60 characters")
  else if !n.data.isEmpty && n.data.all nameAllowedChar then (n, "")
  else ("", "Invalid characters in name")

/-- Dot strictly inside a list: some `'.'` occurs at a position at least 1
with at least one character after it — the `\.` between the two nonempty
runs of `EMAIL_BASIC_RE`'s domain. -/
def dotInside : List Char → Bool
  | [] => false
  | _ :: cs => dotWithTail cs
where
  /-- True when the list contains a `'.'` followed by at least one
  character. -/
  dotWithTail : List Char → Bool
    | [] => false
    | c :: cs => (c = '.' && !cs.isEmpty) || dotWithTail cs

/-- Matcher for `EMAIL_BASIC_RE`, `^[^@\s]+@[^@\s]+\.[^@\s]+$`: one `@`,
nonempty whitespace-free local part, and a domain containing an inner dot. -/
def emailBasicMatch (l : List Char) : Bool :=
  match splitAtFirst '@' l with
  | none => false
  | some (lc, rest) =>
    !lc.isEmpty && lc.all (fun c => !pyWs c) &&
    rest.all (fun c => c ≠ '@' && !pyWs c) && dotInside rest

/-- Source `validate_email(email)` from `validation.py`: normalize and
lowercase, require nonempty, at most 254 characters, then
`EMAIL_BASIC_RE`. -/
def validate_email (email : String) : String × String :=
  let e := pyLower (normalize_basic email)
  if e == "" then ("", "Email is required")
  else if 254 < e.length then ("", "Email too long")
  else if emailBasicMatch e.data then (e, "")
  else ("", "Invalid email format")

/-- Source `validate_phone(phone)` from `validation.py`: normalize, remove
space characters, require nonempty, then `PHONE_RE` (`^\d{7,15}$`). -/
def validate_phone (phone : String) : String × String :=
  let p : String := ⟨(normalize_basic phone).data.filter (fun c => c ≠ ' ')⟩
  if p == "" then ("", "Phone is required")
  else if p.data.all Char.isDigit && 7 ≤ p.length && p.length ≤ 15 then (p, "")
  else ("", "Phone must contain 7 to 15 digits")

/-- Punctuation set of the password rule,
`[!@#$%^&*()\-_=+\[\]{}<>?]`. -/
def passwordSpecialChars : List Char :=
  ['!', '@', '#', '$', '%', '^', '&', '*', '(', ')', '-', '_', '=', '+',
   '[', ']', '\x7b', '\x7d', '<', '>', '?']

/-- Source `validate_password(password, email)` from `validation.py`:
normalize the password, then check in order length 8 to 64, no space, not
case-insensitively equal to the supplied email, and the four character
classes; the first failing rule determines the message. -/
def validate_password (password email : String) : String × String :=
  let p := normalize_basic password
  if p.length < 8 || 64 < p.length then ("", "Password must be between 8 and 64 characters.")
  else if p.data.contains ' ' then ("", "Password cannot contain spaces.")
  else if pyLower p == pyLower email then ("", "Password cannot be equal to email.")
  else if !p.data.any (fun c => 'A' ≤ c && c ≤ 'Z') then ("", "Must include uppercase letter.")
  else if !p.data.any (fun c => 'a' ≤ c && c ≤ 'z') then ("", "Must include lowercase letter.")
  else if !p.data.any Char.isDigit then ("", "Must include number.")
  else if !p.data.any passwordSpecialChars.contains then ("", "Must include special character.")
  else (p, "")

/-- Source `validate_password_confirmation(password, confirm)` from
`validation.py`: normalize only the confirmation and compare with the
password as passed; the clean value is empty on both paths. -/
def validate_password_confirmation (password confirm : String) : String × String :=
  if password ≠ normalize_basic confirm then ("", "Passwords do not match")
  else ("", "")

/-! ## Orchestrators (`validation.py`)

Python dictionaries are modelled as partial maps `String → Option String`;
`d[k] = v` is `dinsert k v d` and key lookup is application. -/

/-- Partial-map model of a Python string dictionary. -/
def Dict := String → Option String

/-- Empty dictionary. -/
def dempty : Dict := fun _ => none

/-- Dictionary update `d[k] = v`. -/
def dinsert (k v : String) (d : Dict) : Dict :=
  fun k' => if k' = k then some v else d k'

/-- Source `validate_payment_form` from `validation.py`: run every field
validator (no short-circuiting), collect clean values for card, expiry, name
and billing email — the CVV contributes no clean entry — and error messages
for whichever fields failed.  `datetime.now()` inside the expiry validator is
the explicit current year and month. -/
def validate_payment_form (card_number exp_date cvv name_on_card billing_email : String)
    (now_year now_month : Nat) : Dict × Dict :=
  let r1 := validate_card_number card_number
  let errors := if r1.2 ≠ "" then dinsert "card_number" r1.2 dempty else dempty
  let clean := dinsert "card" r1.1 dempty
  let r2 := validate_exp_date exp_date now_year now_month
  let errors := if r2.2 ≠ "" then dinsert "exp_date" r2.2 errors else errors
  let clean := dinsert "exp_date" r2.1 clean
  let r3 := validate_cvv cvv
  let errors := if r3.2 ≠ "" then dinsert "cvv" r3.2 errors else errors
  let r4 := validate_name_on_card name_on_card
  let errors := if r4.2 ≠ "" then dinsert "name_on_card" r4.2 errors else errors
  let clean := dinsert "name_on_card" r4.1 clean
  let r5 := validate_billing_email billing_email
  let errors := if r5.2 ≠ "" then dinsert "billing_email" r5.2 errors else errors
  let clean := dinsert "billing_email" r5.1 clean
  (clean, errors)

/-- Source `validate_register_form` from `validation.py`: validate full name,
email, phone, password (against the submitted email) and the confirmation
(against the submitted password); the confirmation contributes no clean
entry. -/
def validate_register_form (full_name email phone password confirm_password : String) :
    Dict × Dict :=
  let r1 := validate_full_name full_name
  let errors := if r1.2 ≠ "" then dinsert "full_name" r1.2 dempty else dempty
  let clean := dinsert "full_name" r1.1 dempty
  let r2 := validate_email email
  let errors := if r2.2 ≠ "" then dinsert "email" r2.2 errors else errors
  let clean := dinsert "email" r2.1 clean
  let r3 := validate_phone phone
  let errors := if r3.2 ≠ "" then dinsert "phone" r3.2 errors else errors
  let clean := dinsert "phone" r3.1 clean
  let r4 := validate_password password email
  let errors := if r4.2 ≠ "" then dinsert "password" r4.2 errors else errors
  let clean := dinsert "password" r4.1 clean
  let r5 := validate_password_confirmation password confirm_password
  let errors := if r5.2 ≠ "" then dinsert "confirm_password" r5.2 errors else errors
  (clean, errors)

/-- Source `validate_profile_form` from `validation.py`: always validate full
name and phone; validate the new password and its confirmation only when the
submitted new password is truthy (nonempty). -/
def validate_profile_form (full_name phone new_password confirm_new_password user_email : String) :
    Dict × Dict :=
  let r1 := validate_full_name full_name
  let errors := if r1.2 ≠ "" then dinsert "full_name" r1.2 dempty else dempty
  let clean := dinsert "full_name" r1.1 dempty
  let r2 := validate_phone phone
  let errors := if r2.2 ≠ "" then dinsert "phone" r2.2 errors else errors
  let clean := dinsert "phone" r2.1 clean
  if new_password ≠ "" then
    let r3 := validate_password new_password user_email
    let errors := if r3.2 ≠ "" then dinsert "new_password" r3.2 errors else errors
    let clean := dinsert "new_password" r3.1 clean
    let r4 := validate_password_confirmation new_password confirm_new_password
    let errors := if r4.2 ≠ "" then dinsert "confirm_new_password" r4.2 errors else errors
    (clean, errors)
  else (clean, errors)

/-- Source `validate_login_form` from `validation.py`: shape-check the email
and non-emptiness-check the password; each failure is reported as the one
generic message. -/
def validate_login_form (email password : String) : Dict × Dict :=
  let r1 := validate_email email
  let errors := if r1.2 ≠ "" then dinsert "email" "Invalid credentials" dempty else dempty
  let clean := dinsert "email" r1.1 dempty
  let p := normalize_basic password
  let errors := if p == "" then dinsert "password" "Invalid credentials" errors else errors
  let clean := dinsert "password" p clean
  (clean, errors)

/-! ## Supporting lemmas: hex round trip -/

theorem hexCharVal_hexDigitChar : ∀ n, n < 16 → hexCharVal (hexDigitChar n) = some n := by
  decide

theorem parseHexPairs_flatten (bs : List Nat) (h : ∀ b ∈ bs, b < 256) :
    parseHexPairs (bs.map byteToHex).flatten = some bs := by
  induction bs with
  | nil => rfl
  | cons b bs ih =>
    have hb : b < 256 := h b (by simp)
    have h1 : b / 16 < 16 := by omega
    have h2 : b % 16 < 16 := by omega
    have hrest : parseHexPairs (bs.map byteToHex).flatten = some bs :=
      ih (fun x hx => h x (by simp [hx]))
    have hb' : 16 * (b / 16) + b % 16 = b := by omega
    have hkey : parseHexPairs
        (hexDigitChar (b / 16) :: hexDigitChar (b % 16) :: (bs.map byteToHex).flatten)
        = some (b :: bs) := by
      simp only [parseHexPairs, hexCharVal_hexDigitChar _ h1, hexCharVal_hexDigitChar _ h2, hrest]
      rw [hb']
    simpa [byteToHex] using hkey

theorem bytes_fromhex_bytesHex (bs : List Nat) (h : ∀ b ∈ bs, b < 256) :
    bytes_fromhex (bytesHex bs) = some bs := by
  simpa [bytes_fromhex, bytesHex] using parseHexPairs_flatten bs h

/-! ## Supporting lemmas: the modelled cipher -/

theorem ctrXor_ctrXor (k n : List Nat) (i : Nat) (l : List Nat) :
    ctrXor k n i (ctrXor k n i l) = l := by
  induction l generalizing i with
  | nil => rfl
  | cons b bs ih => simp [ctrXor, Nat.xor_cancel_right, ih]

theorem ctrXor_length (k n : List Nat) (i : Nat) (l : List Nat) :
    (ctrXor k n i l).length = l.length := by
  induction l generalizing i with
  | nil => rfl
  | cons b bs ih => simp [ctrXor, ih]

theorem ctrXor_lt (k n : List Nat) (i : Nat) (l : List Nat) (h : ∀ b ∈ l, b < 256) :
    ∀ b ∈ ctrXor k n i l, b < 256 := by
  induction l generalizing i with
  | nil => simp [ctrXor]
  | cons b bs ih =>
    intro x hx
    simp only [ctrXor, List.mem_cons] at hx
    rcases hx with hx | hx
    · have h8 : (256 : Nat) = 2 ^ 8 := by norm_num
      subst hx
      rw [h8]
      exact Nat.xor_lt_two_pow (by rw [← h8]; exact h b (by simp))
        (by rw [← h8]; exact Nat.mod_lt _ (by norm_num))
    · exact ih (i + 1) (fun x hx => h x (by simp [hx])) x hx

theorem eaxTag_lt (clave nonce ct : List Nat) (hk : ∀ b ∈ clave, b < 256)
    (hn : ∀ b ∈ nonce, b < 256) (hc : ∀ b ∈ ct, b < 256) :
    ∀ b ∈ eaxTag clave nonce ct, b < 256 := by
  intro b hb
  simp only [eaxTag, List.mem_append] at hb
  rcases hb with (hb | hb) | hb
  · exact hk b hb
  · exact hn b hb
  · exact hc b hb

theorem getD_set_here : ∀ (l : List Nat) (i v : Nat), i < l.length → (l.set i v).getD i 0 = v := by
  intro l
  induction l with
  | nil => intro i v h; simp at h
  | cons a as ih =>
    intro i v hi
    cases i with
    | zero => rfl
    | succ n => exact ih n v (by simpa using hi)

theorem set_ne_of_ne (l : List Nat) (i v : Nat) (hi : i < l.length) (hv : v ≠ l.getD i 0) :
    l.set i v ≠ l := by
  intro h
  exact hv (by rw [← getD_set_here l i v hi, h])

theorem flipBit_ne (l : List Nat) (i j : Nat) (hi : i < l.length) : flipBit l i j ≠ l := by
  refine set_ne_of_ne l i _ hi ?_
  intro h
  have h0 : l.getD i 0 ^^^ 2 ^ j = l.getD i 0 ^^^ 0 := by
    rw [Nat.xor_zero]; exact h
  have h2 : (2 : Nat) ^ j = 0 := Nat.xor_right_injective h0
  have h3 : 0 < (2 : Nat) ^ j := Nat.two_pow_pos j
  omega

theorem flipBit_lt (l : List Nat) (i j : Nat) (hj : j < 8) (h : ∀ b ∈ l, b < 256) :
    ∀ b ∈ flipBit l i j, b < 256 := by
  intro b hb
  rcases List.mem_or_eq_of_mem_set hb with hb | hb
  · exact h b hb
  · subst hb
    have h8 : (256 : Nat) = 2 ^ 8 := by norm_num
    rw [h8]
    refine Nat.xor_lt_two_pow ?_ ?_
    · by_cases hi : i < l.length
      · rw [← h8]
        refine h _ ?_
        rw [List.getD_eq_getElem l 0 hi]
        exact List.getElem_mem hi
      · rw [List.getD_eq_default l 0 (by omega)]
        exact Nat.two_pow_pos 8
    · exact Nat.pow_lt_pow_right (by norm_num) hj

theorem flipBit_length (l : List Nat) (i j : Nat) : (flipBit l i j).length = l.length := by
  simp [flipBit]

/-! ## Supporting lemmas: the modelled KDF encoding -/

theorem kdf_digits_ne (n : Nat) : ∀ x ∈ Nat.digits 255 n, x ≠ 255 := by
  intro x hx
  have := Nat.digits_lt_base (by norm_num) hx
  omega

theorem sep_split : ∀ (xs ys t1 t2 : List Nat), (∀ x ∈ xs, x ≠ 255) → (∀ y ∈ ys, y ≠ 255) →
    xs ++ 255 :: t1 = ys ++ 255 :: t2 → xs = ys ∧ t1 = t2 := by
  intro xs
  induction xs with
  | nil =>
    intro ys t1 t2 _ hy h
    cases ys with
    | nil => simpa using h
    | cons y ys' =>
      exfalso
      simp only [List.nil_append, List.cons_append, List.cons.injEq] at h
      exact hy y (by simp) h.1.symm
  | cons x xs' ih =>
    intro ys t1 t2 hx hy h
    cases ys with
    | nil =>
      exfalso
      simp only [List.nil_append, List.cons_append, List.cons.injEq] at h
      exact hx x (by simp) h.1
    | cons y ys' =>
      simp only [List.cons_append, List.cons.injEq] at h
      obtain ⟨hxy, hrest⟩ := h
      obtain ⟨he, ht⟩ := ih ys' t1 t2 (fun a ha => hx a (by simp [ha]))
        (fun a ha => hy a (by simp [ha])) hrest
      exact ⟨by rw [hxy, he], ht⟩

theorem kdfEncodeList_ne_nil (n : Nat) (l : List Nat) : kdfEncodeList (n :: l) ≠ [] := by
  simp only [kdfEncodeList, kdfEncodeNat]
  intro h
  have := congrArg List.length h
  simp at this

theorem kdfEncodeList_inj : ∀ l1 l2 : List Nat, kdfEncodeList l1 = kdfEncodeList l2 → l1 = l2 := by
  intro l1
  induction l1 with
  | nil =>
    intro l2 h
    cases l2 with
    | nil => rfl
    | cons m l2' => exact absurd h.symm (kdfEncodeList_ne_nil m l2')
  | cons n l1' ih =>
    intro l2 h
    cases l2 with
    | nil => exact absurd h (kdfEncodeList_ne_nil n l1')
    | cons m l2' =>
      simp only [kdfEncodeList, kdfEncodeNat, List.append_assoc, List.cons_append,
        List.nil_append] at h
      obtain ⟨hd, ht⟩ := sep_split _ _ _ _ (kdf_digits_ne n) (kdf_digits_ne m) h
      have hnm : n = m := by
        have := congrArg (Nat.ofDigits 255) hd
        rwa [Nat.ofDigits_digits, Nat.ofDigits_digits] at this
      rw [hnm, ih l2' ht]

theorem kdfEncodeList_lt : ∀ l : List Nat, ∀ x ∈ kdfEncodeList l, x < 256 := by
  intro l
  induction l with
  | nil => simp [kdfEncodeList]
  | cons n l' ih =>
    intro x hx
    simp only [kdfEncodeList, kdfEncodeNat, List.append_assoc, List.cons_append,
      List.nil_append, List.mem_append, List.mem_cons] at hx
    rcases hx with hx | hx | hx
    · have := Nat.digits_lt_base (b := 255) (by norm_num) hx
      omega
    · omega
    · exact ih x hx

theorem pbkdf2_lt (password salt : List Nat) (iterations dklen : Nat) :
    ∀ x ∈ pbkdf2_hmac_sha256 password salt iterations dklen, x < 256 :=
  kdfEncodeList_lt _

/-! ## Claim C2: password hashing and verification -/

/-- Claim C2: for every password `p`, `verify_password p (hash_password p)` is
true, and for every `p2 ≠ p`, `verify_password p2 (hash_password p)` is
false; verification recomputes the derivation with the salt and iteration
count stored in the credential and compares with the stored derived key.
Passwords are taken as their UTF-8 byte sequences and the random 16-byte salt
is explicit; the library KDF is the idealized injective model. -/
theorem C2_verify_password_correct (p p2 salt : List Nat) (hs : ∀ b ∈ salt, b < 256) :
    verify_password p (hash_password p salt) = some true ∧
    (p2 ≠ p → verify_password p2 (hash_password p salt) = some false) := by
  constructor
  · simp [verify_password, hash_password, bytes_fromhex_bytesHex salt hs]
  · intro hne
    simp only [verify_password, hash_password, bytes_fromhex_bytesHex salt hs]
    refine congrArg some ?_
    rw [beq_eq_false_iff_ne]
    intro heq
    have e2 := bytes_fromhex_bytesHex _ (pbkdf2_lt p2 salt 200000 32)
    have e1 := bytes_fromhex_bytesHex _ (pbkdf2_lt p salt 200000 32)
    rw [heq] at e2
    rw [e1] at e2
    have hlists := kdfEncodeList_inj _ _ (Option.some.inj e2)
    simp only [List.cons.injEq] at hlists
    exact hne (List.append_cancel_left hlists.2.2.2).symm

/-- Witness for C2 at a concrete password, second password and salt. -/
theorem C2_verify_password_correct_witness :
    verify_password [104, 105] (hash_password [104, 105] [1, 2]) = some true ∧
    verify_password [104, 106] (hash_password [104, 105] [1, 2]) = some false := by
  refine ⟨(C2_verify_password_correct [104, 105] [104, 106] [1, 2] (by decide)).1, ?_⟩
  exact (C2_verify_password_correct [104, 105] [104, 106] [1, 2] (by decide)).2 (by decide)

/-! ## Claim C3: authenticated encryption round trip -/

/-- Claim C3: for every plaintext (as its UTF-8 byte sequence) and every key,
`decrypt_aes` applied to the three hex strings returned by `encrypt_aes`
under the same key recovers the plaintext.  The random nonce is explicit, and
the cipher is the idealized EAX model. -/
theorem C3_round_trip (texto clave nonce : List Nat)
    (ht : ∀ b ∈ texto, b < 256) (hk : ∀ b ∈ clave, b < 256) (hn : ∀ b ∈ nonce, b < 256) :
    decrypt_aes (encrypt_aes texto clave nonce).1 (encrypt_aes texto clave nonce).2.1
      (encrypt_aes texto clave nonce).2.2 clave = .ok texto := by
  have hct := ctrXor_lt clave nonce 0 texto ht
  have htag := eaxTag_lt clave nonce _ hk hn hct
  simp only [encrypt_aes, decrypt_aes, bytes_fromhex_bytesHex _ hct,
    bytes_fromhex_bytesHex _ hn, bytes_fromhex_bytesHex _ htag]
  simp [ctrXor_ctrXor]

/-- Witness for C3 at a concrete plaintext, key and nonce. -/
theorem C3_round_trip_witness :
    decrypt_aes (encrypt_aes [104, 105] [1, 2] [7]).1 (encrypt_aes [104, 105] [1, 2] [7]).2.1
      (encrypt_aes [104, 105] [1, 2] [7]).2.2 [1, 2] = .ok [104, 105] :=
  C3_round_trip [104, 105] [1, 2] [7] (by decide) (by decide) (by decide)

/-! ## Claim C1: decryption rejects every single-bit corruption -/

/-- Claim C1: for every key and payload produced by `encrypt_aes`, flipping
any single bit of the ciphertext, nonce, or tag bytes makes `decrypt_aes`
fail with the authentication error instead of returning text; verification
happens before any plaintext is released (the result is an error, never
`ok`).  Bits are flipped in the decoded byte sequences, which the hex fields
encode bijectively. -/
theorem C1_bit_flip_rejected (texto clave nonce : List Nat)
    (ht : ∀ b ∈ texto, b < 256) (hk : ∀ b ∈ clave, b < 256) (hn : ∀ b ∈ nonce, b < 256)
    (i j : Nat) (hj : j < 8) :
    encrypt_aes texto clave nonce =
      (bytesHex (ctrXor clave nonce 0 texto), bytesHex nonce,
        bytesHex (eaxTag clave nonce (ctrXor clave nonce 0 texto))) ∧
    (i < texto.length →
      decrypt_aes (bytesHex (flipBit (ctrXor clave nonce 0 texto) i j)) (bytesHex nonce)
        (bytesHex (eaxTag clave nonce (ctrXor clave nonce 0 texto))) clave
        = .error .macCheckFailed) ∧
    (i < nonce.length →
      decrypt_aes (bytesHex (ctrXor clave nonce 0 texto)) (bytesHex (flipBit nonce i j))
        (bytesHex (eaxTag clave nonce (ctrXor clave nonce 0 texto))) clave
        = .error .macCheckFailed) ∧
    (i < clave.length + nonce.length + texto.length →
      decrypt_aes (bytesHex (ctrXor clave nonce 0 texto)) (bytesHex nonce)
        (bytesHex (flipBit (eaxTag clave nonce (ctrXor clave nonce 0 texto)) i j)) clave
        = .error .macCheckFailed) := by
  have hct := ctrXor_lt clave nonce 0 texto ht
  have htag := eaxTag_lt clave nonce _ hk hn hct
  refine ⟨rfl, ?_, ?_, ?_⟩
  · intro hi
    have hi' : i < (ctrXor clave nonce 0 texto).length := by
      rwa [ctrXor_length]
    have hflip := flipBit_lt (ctrXor clave nonce 0 texto) i j hj hct
    simp only [decrypt_aes, bytes_fromhex_bytesHex _ hflip, bytes_fromhex_bytesHex _ hn,
      bytes_fromhex_bytesHex _ htag]
    rw [if_neg]
    intro h
    simp only [eaxTag] at h
    have h1 := List.append_cancel_left h
    exact flipBit_ne _ i j hi' h1
  · intro hi
    have hflip := flipBit_lt nonce i j hj hn
    simp only [decrypt_aes, bytes_fromhex_bytesHex _ hct, bytes_fromhex_bytesHex _ hflip,
      bytes_fromhex_bytesHex _ htag]
    rw [if_neg]
    intro h
    simp only [eaxTag] at h
    have h1 := List.append_cancel_right h
    have h2 := List.append_cancel_left h1
    exact flipBit_ne nonce i j hi h2
  · intro hi
    have hi' : i < (eaxTag clave nonce (ctrXor clave nonce 0 texto)).length := by
      simp [eaxTag, ctrXor_length]
      omega
    have hflip := flipBit_lt _ i j hj htag
    simp only [decrypt_aes, bytes_fromhex_bytesHex _ hct, bytes_fromhex_bytesHex _ hn,
      bytes_fromhex_bytesHex _ hflip]
    rw [if_neg]
    intro h
    exact flipBit_ne _ i j hi' h.symm

/-- Witness for C1 at a concrete payload, flipping bit 0 of byte 0 of each
field in turn. -/
theorem C1_bit_flip_rejected_witness :
    decrypt_aes (bytesHex (flipBit (ctrXor [1, 2] [7] 0 [104, 105]) 0 0)) (bytesHex [7])
      (bytesHex (eaxTag [1, 2] [7] (ctrXor [1, 2] [7] 0 [104, 105]))) [1, 2]
      = .error .macCheckFailed ∧
    decrypt_aes (bytesHex (ctrXor [1, 2] [7] 0 [104, 105])) (bytesHex (flipBit [7] 0 0))
      (bytesHex (eaxTag [1, 2] [7] (ctrXor [1, 2] [7] 0 [104, 105]))) [1, 2]
      = .error .macCheckFailed ∧
    decrypt_aes (bytesHex (ctrXor [1, 2] [7] 0 [104, 105])) (bytesHex [7])
      (bytesHex (flipBit (eaxTag [1, 2] [7] (ctrXor [1, 2] [7] 0 [104, 105])) 0 0)) [1, 2]
      = .error .macCheckFailed := by
  have h := C1_bit_flip_rejected [104, 105] [1, 2] [7] (by decide) (by decide) (by decide)
    0 0 (by decide)
  exact ⟨h.2.1 (by decide), h.2.2.1 (by decide), h.2.2.2 (by decide)⟩

/-! ## Supporting lemmas: characters and digits -/

theorem char_toNat_inj {a b : Char} (h : a.toNat = b.toNat) : a = b := by
  have h2 := congrArg Char.ofNat h
  rwa [Char.ofNat_toNat, Char.ofNat_toNat] at h2

theorem isDigit_bounds {c : Char} (h : c.isDigit = true) : 48 ≤ c.toNat ∧ c.toNat ≤ 57 := by
  simp only [Char.isDigit, Bool.and_eq_true, decide_eq_true_eq] at h
  exact h

theorem digitVal_lt {c : Char} (h : c.isDigit = true) : digitVal c < 10 := by
  have := isDigit_bounds h
  unfold digitVal
  omega

theorem digitVal_inj {a b : Char} (ha : a.isDigit = true) (hb : b.isDigit = true)
    (h : digitVal a = digitVal b) : a = b := by
  have h1 := isDigit_bounds ha
  have h2 := isDigit_bounds hb
  refine char_toNat_inj ?_
  unfold digitVal at h
  omega

theorem set_getD_self : ∀ (l : List Char) (k : Nat), l.set k (l.getD k ' ') = l := by
  intro l
  induction l with
  | nil => intro k; rfl
  | cons a as ih =>
    intro k
    cases k with
    | zero => rfl
    | succ n =>
      show a :: as.set n (as.getD n ' ') = a :: as
      rw [ih]

/-! ## Supporting lemmas: the Luhn checksum -/

theorem luhnAddend_lt (i d : Nat) (hd : d < 10) : luhnAddend i d < 10 := by
  unfold luhnAddend
  split
  · split <;> omega
  · omega

theorem luhnAddend_inj (i : Nat) {d e : Nat} (hd : d < 10) (he : e < 10) (hne : d ≠ e) :
    luhnAddend i d ≠ luhnAddend i e := by
  unfold luhnAddend
  by_cases hp : i % 2 = 1 <;> simp only [hp, if_true, if_false, reduceIte]
  · split <;> split <;> omega
  · exact hne

theorem luhnChecksum_append (l1 l2 : List Nat) :
    ∀ i, luhnChecksum i (l1 ++ l2) = luhnChecksum i l1 + luhnChecksum (i + l1.length) l2 := by
  induction l1 with
  | nil => intro i; simp [luhnChecksum]
  | cons d ds ih =>
    intro i
    have e1 : luhnChecksum i ((d :: ds) ++ l2)
        = luhnAddend i d + luhnChecksum (i + 1) (ds ++ l2) := rfl
    have e2 : luhnChecksum i (d :: ds) = luhnAddend i d + luhnChecksum (i + 1) ds := rfl
    have e3 : i + 1 + ds.length = i + (d :: ds).length := by
      simp only [List.length_cons]
      omega
    rw [e1, e2, ih (i + 1), e3]
    omega

theorem luhnChecksum_middle (X Y : List Nat) (d : Nat) (i : Nat) :
    luhnChecksum i (X ++ d :: Y)
      = luhnChecksum i X + luhnAddend (i + X.length) d + luhnChecksum (i + X.length + 1) Y := by
  rw [luhnChecksum_append]
  simp only [luhnChecksum]
  omega

theorem luhn_mutation (t : List Char) (k : Nat) (c : Char)
    (hall : t.all Char.isDigit = true) (hk : k < t.length) (hc : c.isDigit = true)
    (hne : c ≠ t.getD k ' ') (hv : luhn_is_valid ⟨t⟩ = true) :
    luhn_is_valid ⟨t.set k c⟩ = false := by
  have hd : t.getD k ' ' ∈ t := by
    rw [List.getD_eq_getElem t ' ' hk]
    exact List.getElem_mem hk
  have hddig : (t.getD k ' ').isDigit = true := (List.all_eq_true.mp hall) _ hd
  have h1 : t = t.take k ++ t.getD k ' ' :: t.drop (k + 1) := by
    conv_lhs => rw [← set_getD_self t k]
    exact List.set_eq_take_cons_drop _ hk
  have h2 : t.set k c = t.take k ++ c :: t.drop (k + 1) := List.set_eq_take_cons_drop c hk
  have hset_all : (t.set k c).all Char.isDigit = true := by
    rw [List.all_eq_true]
    intro x hx
    rcases List.mem_or_eq_of_mem_set hx with hx | hx
    · exact (List.all_eq_true.mp hall) _ hx
    · rw [hx]; exact hc
  have ht_ne : t ≠ [] := by
    intro h
    rw [h] at hk
    simp at hk
  have hset_ne : t.set k c ≠ [] := by
    intro h
    have hlen := congrArg List.length h
    rw [List.length_set] at hlen
    exact ht_ne (List.length_eq_zero.mp (by simpa using hlen))
  -- reversed digit lists decomposed around position k
  have hrev1 : (t.map digitVal).reverse
      = ((t.drop (k + 1)).map digitVal).reverse
        ++ digitVal (t.getD k ' ') :: ((t.take k).map digitVal).reverse := by
    conv_lhs => rw [h1]
    simp [List.reverse_append]
  have hrev2 : ((t.set k c).map digitVal).reverse
      = ((t.drop (k + 1)).map digitVal).reverse
        ++ digitVal c :: ((t.take k).map digitVal).reverse := by
    conv_lhs => rw [h2]
    simp [List.reverse_append]
  have hisdig1 : pyIsdigit ⟨t⟩ = true := by
    simp only [pyIsdigit, Bool.and_eq_true, Bool.not_eq_true']
    exact ⟨by simpa [List.isEmpty_iff] using ht_ne, hall⟩
  have hisdig2 : pyIsdigit ⟨t.set k c⟩ = true := by
    simp only [pyIsdigit, Bool.and_eq_true, Bool.not_eq_true']
    exact ⟨by simpa [List.isEmpty_iff] using hset_ne, hset_all⟩
  have hv' : luhnChecksum 0 (t.map digitVal).reverse % 10 = 0 := by
    simp only [luhn_is_valid, hisdig1, Bool.not_true, Bool.false_eq_true, if_false,
      decide_eq_true_eq] at hv
    exact hv
  simp only [luhn_is_valid, hisdig2, Bool.not_true, Bool.false_eq_true, if_false,
    decide_eq_false_iff_not]
  rw [hrev2]
  rw [hrev1] at hv'
  rw [luhnChecksum_middle] at hv' ⊢
  set p := 0 + ((t.drop (k + 1)).map digitVal).reverse.length with hp
  have ha1 : luhnAddend p (digitVal (t.getD k ' ')) < 10 := luhnAddend_lt _ _ (digitVal_lt hddig)
  have ha2 : luhnAddend p (digitVal c) < 10 := luhnAddend_lt _ _ (digitVal_lt hc)
  have hanej : luhnAddend p (digitVal c) ≠ luhnAddend p (digitVal (t.getD k ' ')) :=
    luhnAddend_inj p (digitVal_lt hc) (digitVal_lt hddig)
      (fun h => hne (digitVal_inj hc hddig h))
  omega

/-! ## Claim C5: Luhn validation of card numbers -/

/-- Claim C5: every input whose normalized, digit-stripped form has length 13
to 19 and passes the Luhn checksum is returned by `validate_card_number` with
no error; mutating any single digit of a Luhn-valid digit string breaks the
checksum; and the two reference vectors behave as stated. -/
theorem C5_card_number_luhn (s : String) :
    (13 ≤ ((normalize_basic s).data.filter Char.isDigit).length →
      ((normalize_basic s).data.filter Char.isDigit).length ≤ 19 →
      luhn_is_valid ⟨(normalize_basic s).data.filter Char.isDigit⟩ = true →
      validate_card_number s = (⟨(normalize_basic s).data.filter Char.isDigit⟩, "")) ∧
    (∀ (t : List Char) (k : Nat) (c : Char),
      t.all Char.isDigit = true → k < t.length → c.isDigit = true → c ≠ t.getD k ' ' →
      luhn_is_valid ⟨t⟩ = true → luhn_is_valid ⟨t.set k c⟩ = false) ∧
    validate_card_number ("4532015112830366") = ("4532015112830366", "") ∧
    luhn_is_valid ("4532015112830367") = false := by
  refine ⟨?_, luhn_mutation, by decide, by decide⟩
  intro h13 h19 hluhn
  set d := (normalize_basic s).data.filter Char.isDigit with hd
  have hne : d ≠ [] := by
    intro h
    rw [h] at h13
    simp at h13
  have hall : d.all Char.isDigit = true := by
    rw [List.all_eq_true]
    intro x hx
    exact List.of_mem_filter (hd ▸ hx)
  have hisdig : pyIsdigit ⟨d⟩ = true := by
    simp only [pyIsdigit, Bool.and_eq_true, Bool.not_eq_true']
    exact ⟨by simpa [List.isEmpty_iff] using hne, hall⟩
  simp only [validate_card_number, ← hd]
  split
  · rename_i hcond
    rw [hluhn] at hcond
    simp at hcond
  · split
    · rfl
    · rename_i hcond
      exfalso
      apply hcond
      show (pyIsdigit ⟨d⟩ && decide (13 ≤ d.length) && decide (d.length ≤ 19)) = true
      rw [hisdig]
      simp [h13, h19]

/-- Witness for C5: the reference vector is accepted, and mutating its first
digit breaks the Luhn checksum. -/
theorem C5_card_number_luhn_witness :
    validate_card_number ("4532015112830366") = ("4532015112830366", "") ∧
    luhn_is_valid ⟨("4532015112830366" : String).data.set 0 '5'⟩ = false := by
  have h := C5_card_number_luhn ("4532015112830366")
  exact ⟨h.2.2.1,
    h.2.1 ("4532015112830366" : String).data 0 '5' (by decide) (by decide) (by decide)
      (by decide) (by decide)⟩

/-! ## Supporting lemmas: the expiry-date parser -/

/-! ## Supporting lemmas: the expiry-date parser -/

theorem splitAtFirst_eq (sep : Char) :
    ∀ (l a b : List Char), splitAtFirst sep l = some (a, b) → l = a ++ sep :: b ∧ sep ∉ a := by
  intro l
  induction l with
  | nil => intro a b h; simp [splitAtFirst] at h
  | cons c cs ih =>
    intro a b h
    by_cases hc : c = sep
    · subst hc
      have h' : (([] : List Char), cs) = (a, b) := by
        apply Option.some.inj
        rw [← h]
        simp [splitAtFirst]
      injection h' with h1 h2
      subst h1
      subst h2
      exact ⟨rfl, by simp⟩
    · simp only [splitAtFirst, if_neg hc] at h
      cases hsp : splitAtFirst sep cs with
      | none => rw [hsp] at h; simp at h
      | some p =>
        obtain ⟨a', b'⟩ := p
        rw [hsp] at h
        simp only [Option.some.injEq, Prod.mk.injEq] at h
        obtain ⟨ha, hb⟩ := h
        obtain ⟨he, hn⟩ := ih a' b' hsp
        subst hb
        constructor
        · rw [← ha]
          simp [he]
        · rw [← ha]
          intro hm
          rcases List.mem_cons.mp hm with hm | hm
          · exact hc hm.symm
          · exact hn hm

theorem splitAtFirst_append (sep : Char) :
    ∀ (a b : List Char), sep ∉ a → splitAtFirst sep (a ++ sep :: b) = some (a, b) := by
  intro a
  induction a with
  | nil => intro b _; simp [splitAtFirst]
  | cons c cs ih =>
    intro b hna
    have hc : ¬(c = sep) := fun h => hna (by simp [h])
    have hcs : sep ∉ cs := fun h => hna (by simp [h])
    rw [List.cons_append]
    unfold splitAtFirst
    rw [if_neg hc, ih b hcs]

theorem monthOf_no_slash (l : List Char) (m : Nat) (h : monthOf l = some m) : '/' ∉ l := by
  intro hm
  cases l with
  | nil => simp at hm
  | cons c1 rest =>
    cases rest with
    | nil =>
      simp only [List.mem_singleton] at hm
      subst hm
      simp only [monthOf] at h
      split at h
      · rename_i hcnd
        simp only [Bool.and_eq_true, decide_eq_true_eq] at hcnd
        exact absurd hcnd.1 (by decide)
      · exact Option.noConfusion h
    | cons c2 rest2 =>
      cases rest2 with
      | nil =>
        simp only [monthOf] at h
        rcases List.mem_cons.mp hm with h1 | h1
        · subst h1
          split at h
          · rename_i hcnd
            simp only [Bool.and_eq_true, decide_eq_true_eq] at hcnd
            exact absurd hcnd.1 (by decide)
          · split at h
            · rename_i hcnd
              simp only [Bool.and_eq_true, decide_eq_true_eq] at hcnd
              exact absurd hcnd.1 (by decide)
            · exact Option.noConfusion h
        · have h2 : c2 = '/' := (List.mem_singleton.mp h1).symm
          subst h2
          split at h
          · rename_i hcnd
            simp only [Bool.and_eq_true, decide_eq_true_eq] at hcnd
            exact absurd hcnd.2.1 (by decide)
          · split at h
            · rename_i hcnd
              simp only [Bool.and_eq_true, decide_eq_true_eq] at hcnd
              exact absurd hcnd.2.1 (by decide)
            · exact Option.noConfusion h
      | cons _ _ => simp [monthOf] at h

theorem strptime_m_y_some_iff (s : String) (m y : Nat) :
    strptime_m_y s = some (m, y) ↔
      ∃ pre post, s.data = pre ++ '/' :: post ∧ monthOf pre = some m ∧ yearOf post = some y := by
  constructor
  · intro h
    cases hsp : splitAtFirst '/' s.data with
    | none =>
      have h2 : (none : Option (Nat × Nat)) = some (m, y) := by
        rw [← h]
        unfold strptime_m_y
        rw [hsp]
      exact Option.noConfusion h2
    | some p =>
      obtain ⟨pre, post⟩ := p
      obtain ⟨heq, -⟩ := splitAtFirst_eq '/' _ pre post hsp
      have h2 : (match monthOf pre, yearOf post with
          | some m', some y' => some (m', y')
          | _, _ => (none : Option (Nat × Nat))) = some (m, y) := by
        rw [← h]
        unfold strptime_m_y
        rw [hsp]
      cases hmo : monthOf pre with
      | none =>
        rw [hmo] at h2
        exact Option.noConfusion h2
      | some m' =>
        cases hyo : yearOf post with
        | none =>
          rw [hmo, hyo] at h2
          exact Option.noConfusion h2
        | some y' =>
          rw [hmo, hyo] at h2
          have h3 := Option.some.inj h2
          simp only [Prod.mk.injEq] at h3
          exact ⟨pre, post, heq, by rw [hmo, h3.1], by rw [hyo, h3.2]⟩
  · rintro ⟨pre, post, heq, hmo, hyo⟩
    have hstep : strptime_m_y s
        = (match monthOf pre, yearOf post with
           | some m', some y' => some (m', y')
           | _, _ => (none : Option (Nat × Nat))) := by
      unfold strptime_m_y
      rw [heq, splitAtFirst_append '/' pre post (monthOf_no_slash pre m hmo)]
    rw [hstep, hmo, hyo]

theorem validate_exp_date_none (s : String) (ny nm : Nat)
    (hsp : strptime_m_y (normalize_basic s) = none) :
    validate_exp_date s ny nm = ("", "Please use MM/YY format") := by
  unfold validate_exp_date
  rw [hsp]

theorem validate_exp_date_past (s : String) (ny nm m y : Nat)
    (hsp : strptime_m_y (normalize_basic s) = some (m, y))
    (hpast : y < ny ∨ (y = ny ∧ m < nm)) :
    validate_exp_date s ny nm = ("", "Out of date, use another card.") := by
  unfold validate_exp_date
  rw [hsp]
  have hb : (y < ny || (y = ny && m < nm)) = true := by
    simp only [Bool.or_eq_true, Bool.and_eq_true, decide_eq_true_eq]
    exact hpast
  simp only [hb, if_true]

theorem validate_exp_date_ok (s : String) (ny nm m y : Nat)
    (hsp : strptime_m_y (normalize_basic s) = some (m, y))
    (hpast : ¬(y < ny ∨ (y = ny ∧ m < nm))) :
    validate_exp_date s ny nm = ("", "") := by
  unfold validate_exp_date
  rw [hsp]
  have hb : (y < ny || (y = ny && m < nm)) = false := by
    rw [Bool.eq_false_iff]
    intro hcontra
    simp only [Bool.or_eq_true, Bool.and_eq_true, decide_eq_true_eq] at hcontra
    exact hpast hcontra
  simp only [hb, Bool.false_eq_true, if_false]

/-! ## Claim C4: expiry-date validation -/

/-- Claim C4 counterexample: `validate_exp_date` accepts `"1/28"` (with the
current date 2026-10), an input that does not match the strict MM/YY shape
with month 01 to 12 (the source pattern `EXP_RE`), refuting "accepts exactly
the inputs that normalize to MM/YY"; and `"12/99"` — December 2099 under the
claim's reading, hence not earlier than any current date up to 2099 — is
rejected as expired, because `strptime`'s two-digit-year pivot reads it as
December 1999. -/
theorem C4_exp_date_counterexample :
    validate_exp_date ("1/28") 2026 10 = ("", "") ∧
    EXP_RE_match (normalize_basic ("1/28")) = false ∧
    validate_exp_date ("12/99") 2026 10 = ("", "Out of date, use another card.") ∧
    EXP_RE_match (normalize_basic ("12/99")) = true := by
  exact ⟨by decide, by decide, by decide, by decide⟩

/-- Claim C4 as amended: `validate_exp_date` accepts exactly the inputs whose
normalized form is month, `/`, two-digit year — month written as `1`-`9`,
`01`-`09` or `10`-`12` (`strptime`'s `%m`, not only zero-padded MM), year YY
denoting 2000+YY when YY ≤ 68 and 1900+YY when YY ≥ 69 — whose denoted
year/month is not strictly earlier than the caller's current year/month (the
same month and year is accepted); unparsable input yields the format error, a
past date the expired error; `"01/20"` is expired relative to any current
date in 2021 or later; `"12/99"` parses (as December 1999 under the pivot)
and is judged by the same comparison rule, not special-cased. -/
theorem C4_exp_date_amended (s : String) (now_year now_month : Nat) :
    (validate_exp_date s now_year now_month = ("", "") ↔
      ∃ m y, strptime_m_y (normalize_basic s) = some (m, y) ∧
        ¬(y < now_year ∨ (y = now_year ∧ m < now_month))) ∧
    (validate_exp_date s now_year now_month = ("", "Please use MM/YY format") ↔
      strptime_m_y (normalize_basic s) = none) ∧
    (validate_exp_date s now_year now_month = ("", "Out of date, use another card.") ↔
      ∃ m y, strptime_m_y (normalize_basic s) = some (m, y) ∧
        (y < now_year ∨ (y = now_year ∧ m < now_month))) ∧
    (∀ m y, strptime_m_y (normalize_basic s) = some (m, y) ↔
      ∃ pre post, (normalize_basic s).data = pre ++ '/' :: post ∧
        monthOf pre = some m ∧ yearOf post = some y) ∧
    strptime_m_y ("12/99") = some (12, 1999) ∧
    (2021 ≤ now_year → validate_exp_date ("01/20") now_year now_month
      = ("", "Out of date, use another card.")) := by
  refine ⟨?_, ?_, ?_, fun m y => strptime_m_y_some_iff (normalize_basic s) m y, by decide, ?_⟩
  · constructor
    · intro h
      cases hsp : strptime_m_y (normalize_basic s) with
      | none =>
        rw [validate_exp_date_none s now_year now_month hsp] at h
        exact absurd h (by decide)
      | some p =>
        obtain ⟨m, y⟩ := p
        by_cases hpast : y < now_year ∨ (y = now_year ∧ m < now_month)
        · rw [validate_exp_date_past s now_year now_month m y hsp hpast] at h
          exact absurd h (by decide)
        · exact ⟨m, y, rfl, hpast⟩
    · rintro ⟨m, y, hsp, hpast⟩
      exact validate_exp_date_ok s now_year now_month m y hsp hpast
  · constructor
    · intro h
      cases hsp : strptime_m_y (normalize_basic s) with
      | none => rfl
      | some p =>
        obtain ⟨m, y⟩ := p
        by_cases hpast : y < now_year ∨ (y = now_year ∧ m < now_month)
        · rw [validate_exp_date_past s now_year now_month m y hsp hpast] at h
          exact absurd h (by decide)
        · rw [validate_exp_date_ok s now_year now_month m y hsp hpast] at h
          exact absurd h (by decide)
    · intro hsp
      exact validate_exp_date_none s now_year now_month hsp
  · constructor
    · intro h
      cases hsp : strptime_m_y (normalize_basic s) with
      | none =>
        rw [validate_exp_date_none s now_year now_month hsp] at h
        exact absurd h (by decide)
      | some p =>
        obtain ⟨m, y⟩ := p
        by_cases hpast : y < now_year ∨ (y = now_year ∧ m < now_month)
        · exact ⟨m, y, rfl, hpast⟩
        · rw [validate_exp_date_ok s now_year now_month m y hsp hpast] at h
          exact absurd h (by decide)
    · rintro ⟨m, y, hsp, hpast⟩
      exact validate_exp_date_past s now_year now_month m y hsp hpast
  · intro hny
    refine validate_exp_date_past ("01/20") now_year now_month 1 2020 (by decide) ?_
    left
    omega

/-- Witness for C4's amended theorem: the expired reference vector at the
concrete current date 2026-10. -/
theorem C4_exp_date_amended_witness :
    validate_exp_date ("01/20") 2026 10 = ("", "Out of date, use another card.") :=
  (C4_exp_date_amended ("01/20") 2026 10).2.2.2.2.2 (by omega)
/-! ## Supporting lemmas: dictionaries and orchestrators -/

theorem dinsert_self (k v : String) (d : Dict) : dinsert k v d k = some v := by
  simp [dinsert]

theorem dinsert_ne (k k' v : String) (d : Dict) (h : ¬(k' = k)) : dinsert k v d k' = d k' := by
  simp [dinsert, h]

theorem validate_password_err_of_eq (pw em : String)
    (h : pyLower (normalize_basic pw) = pyLower em) : (validate_password pw em).2 ≠ "" := by
  simp only [validate_password]
  split
  · decide
  · split
    · decide
    · split
      · decide
      · rename_i hne
        exact absurd (by simp [h] : (pyLower (normalize_basic pw) == pyLower em) = true) hne

theorem login_email_errors (email k v : String)
    (h : (if (validate_email email).2 ≠ ""
          then dinsert "email" ("Invalid credentials") dempty else dempty) k = some v) :
    v = "Invalid credentials" := by
  by_cases h1 : (validate_email email).2 ≠ ""
  · rw [if_pos h1] at h
    simp only [dinsert] at h
    by_cases hk : k = "email"
    · rw [if_pos hk] at h
      exact (Option.some.inj h).symm
    · rw [if_neg hk] at h
      exact Option.noConfusion h
  · rw [if_neg h1] at h
    exact Option.noConfusion h

/-! ## Claim C6: password equal to the email is rejected -/

/-- Claim C6: whenever the (normalized) password is case-insensitively equal
to the submitted email, `validate_register_form` records a nonempty password
error — whichever of the ordered checks fires first, the password is never
accepted. -/
theorem C6_password_equals_email_rejected
    (full_name email phone password confirm_password : String)
    (h : pyLower (normalize_basic password) = pyLower email) :
    ∃ msg, (validate_register_form full_name email phone password confirm_password).2
      ("password") = some msg ∧ msg ≠ "" := by
  have herr := validate_password_err_of_eq password email h
  refine ⟨(validate_password password email).2, ?_, herr⟩
  simp only [validate_register_form]
  by_cases h5 : (validate_password_confirmation password confirm_password).2 ≠ ""
  · rw [if_pos h5, dinsert_ne _ _ _ _ (by decide), if_pos herr, dinsert_self]
  · rw [if_neg h5, if_pos herr, dinsert_self]

/-- Witness for C6 at a concrete registration whose password equals its email
case-insensitively while satisfying every character-class rule. -/
theorem C6_password_equals_email_rejected_witness :
    ∃ msg, (validate_register_form ("John Doe") ("abc@defg1") ("1234567") ("Abc@Defg1")
      ("Abc@Defg1")).2 ("password") = some msg ∧ msg ≠ "" :=
  C6_password_equals_email_rejected ("John Doe") ("abc@defg1") ("1234567") ("Abc@Defg1")
    ("Abc@Defg1") (by decide)

/-! ## Claim C7: the CVV is never handed back -/

/-- Claim C7: `validate_cvv` returns an empty clean value on every input,
valid or not — in particular `"123"` yields `("", "")` — and the payment
orchestrator's clean map never contains a `cvv` key. -/
theorem C7_cvv_never_stored (cvv : String) :
    (validate_cvv cvv).1 = "" ∧
    validate_cvv ("123") = ("", "") ∧
    (∀ (card_number exp_date cvv2 name_on_card billing_email : String)
       (now_year now_month : Nat),
      (validate_payment_form card_number exp_date cvv2 name_on_card billing_email
        now_year now_month).1 ("cvv") = none) := by
  refine ⟨?_, by decide, ?_⟩
  · simp only [validate_cvv]
    split
    · rfl
    · rfl
  · intro a b c d e ny nm
    rfl

/-! ## Claim C9: login errors are a single generic message -/

/-- Claim C9: every message in the error map returned by
`validate_login_form` is exactly the generic string, so the map's messages
never distinguish a malformed or unknown email from a missing password. -/
theorem C9_login_generic_errors (email password k v : String)
    (h : (validate_login_form email password).2 k = some v) : v = "Invalid credentials" := by
  simp only [validate_login_form] at h
  by_cases h2 : (normalize_basic password == "") = true
  · rw [if_pos h2] at h
    simp only [dinsert] at h
    by_cases hk : k = "password"
    · rw [if_pos hk] at h
      exact (Option.some.inj h).symm
    · rw [if_neg hk] at h
      exact login_email_errors email k v h
  · rw [if_neg h2] at h
    exact login_email_errors email k v h

/-- Witness for C9: a malformed email and empty password produce exactly the
generic message. -/
theorem C9_login_generic_errors_witness :
    (validate_login_form ("x") ("")).2 ("email") = some ("Invalid credentials") ∧
    "Invalid credentials" = "Invalid credentials" :=
  ⟨by decide, C9_login_generic_errors ("x") ("") ("email") ("Invalid credentials") (by decide)⟩

/-! ## Claim C10: the expiry clean value is always empty -/

/-- Claim C10: `validate_exp_date` returns an empty clean component on every
input — also on valid expiry dates — so the payment form's clean entry for
`exp_date` is always the empty string. -/
theorem C10_exp_clean_always_empty (s : String) (now_year now_month : Nat) :
    (validate_exp_date s now_year now_month).1 = "" ∧
    (∀ (card_number cvv name_on_card billing_email : String),
      (validate_payment_form card_number s cvv name_on_card billing_email
        now_year now_month).1 ("exp_date") = some "") := by
  have h1 : (validate_exp_date s now_year now_month).1 = "" := by
    unfold validate_exp_date
    split
    · rfl
    · split
      · rfl
      · rfl
  refine ⟨h1, ?_⟩
  intro a c d e
  have h2 : (validate_payment_form a s c d e now_year now_month).1 ("exp_date")
      = some (validate_exp_date s now_year now_month).1 := rfl
  rw [h2, h1]

/-! ## Claim C8: population of the clean maps -/

/-- Claim C8 counterexample: the registration orchestrator never populates a
clean entry for `confirm_password`, and the profile orchestrator omits
`new_password` from its clean map when no new password is supplied — so the
clean maps are not fully populated over every known field of the form. -/
theorem C8_clean_population_counterexample :
    (validate_register_form ("John Doe") ("a@b.com") ("1234567") ("Passw0rd!")
      ("Passw0rd!")).1 ("confirm_password") = none ∧
    (validate_profile_form ("John Doe") ("1234567") ("") ("xyz") ("a@b.com")).1
      ("new_password") = none := by
  exact ⟨by decide, by decide⟩

/-- Claim C8 as amended: on every input, the payment clean map has entries
exactly for card, expiry, name and billing email (never cvv); the
registration clean map for full name, email, phone and password (never the
confirmation); the profile clean map for full name and phone, plus the new
password exactly when one was supplied (never the confirmation); and the
login clean map for email and password.  Those entries are present
independent of the error state. -/
theorem C8_clean_population_amended
    (card_number exp_date cvv name_on_card billing_email : String) (now_year now_month : Nat)
    (full_name email phone password confirm_password : String)
    (pfull pphone new_password confirm_new user_email : String)
    (lemail lpassword : String) :
    ((validate_payment_form card_number exp_date cvv name_on_card billing_email
        now_year now_month).1 ("card")).isSome = true ∧
    ((validate_payment_form card_number exp_date cvv name_on_card billing_email
        now_year now_month).1 ("exp_date")).isSome = true ∧
    ((validate_payment_form card_number exp_date cvv name_on_card billing_email
        now_year now_month).1 ("name_on_card")).isSome = true ∧
    ((validate_payment_form card_number exp_date cvv name_on_card billing_email
        now_year now_month).1 ("billing_email")).isSome = true ∧
    (validate_payment_form card_number exp_date cvv name_on_card billing_email
        now_year now_month).1 ("cvv") = none ∧
    ((validate_register_form full_name email phone password confirm_password).1
        ("full_name")).isSome = true ∧
    ((validate_register_form full_name email phone password confirm_password).1
        ("email")).isSome = true ∧
    ((validate_register_form full_name email phone password confirm_password).1
        ("phone")).isSome = true ∧
    ((validate_register_form full_name email phone password confirm_password).1
        ("password")).isSome = true ∧
    (validate_register_form full_name email phone password confirm_password).1
        ("confirm_password") = none ∧
    ((validate_profile_form pfull pphone new_password confirm_new user_email).1
        ("full_name")).isSome = true ∧
    ((validate_profile_form pfull pphone new_password confirm_new user_email).1
        ("phone")).isSome = true ∧
    (new_password ≠ "" →
      ((validate_profile_form pfull pphone new_password confirm_new user_email).1
        ("new_password")).isSome = true) ∧
    (new_password = "" →
      (validate_profile_form pfull pphone new_password confirm_new user_email).1
        ("new_password") = none) ∧
    (validate_profile_form pfull pphone new_password confirm_new user_email).1
        ("confirm_new_password") = none ∧
    ((validate_login_form lemail lpassword).1 ("email")).isSome = true ∧
    ((validate_login_form lemail lpassword).1 ("password")).isSome = true := by
  refine ⟨rfl, rfl, rfl, rfl, rfl, rfl, rfl, rfl, rfl, rfl, ?_, ?_, ?_, ?_, ?_, rfl, rfl⟩
  · by_cases hnp : new_password ≠ ""
    · simp only [validate_profile_form]
      rw [if_pos hnp]
      rfl
    · simp only [validate_profile_form]
      rw [if_neg hnp]
      rfl
  · by_cases hnp : new_password ≠ ""
    · simp only [validate_profile_form]
      rw [if_pos hnp]
      rfl
    · simp only [validate_profile_form]
      rw [if_neg hnp]
      rfl
  · intro hnp
    simp only [validate_profile_form]
    rw [if_pos hnp]
    rfl
  · intro hnp
    have hnp' : ¬(new_password ≠ "") := by simp [hnp]
    simp only [validate_profile_form]
    rw [if_neg hnp']
    rfl
  · by_cases hnp : new_password ≠ ""
    · simp only [validate_profile_form]
      rw [if_pos hnp]
      rfl
    · simp only [validate_profile_form]
      rw [if_neg hnp]
      rfl

/-- Witness for C8's amended theorem: the profile clean map contains a
`new_password` entry exactly when a new password was supplied. -/
theorem C8_clean_population_amended_witness :
    ((validate_profile_form ("John Doe") ("1234567") ("Passw0rd!") ("Passw0rd!")
      ("a@b.com")).1 ("new_password")).isSome = true ∧
    (validate_profile_form ("John Doe") ("1234567") ("") ("xyz") ("a@b.com")).1
      ("new_password") = none := by
  have h1 := C8_clean_population_amended ("") ("") ("") ("") ("") 0 0 ("") ("") ("") ("") ("")
    ("John Doe") ("1234567") ("Passw0rd!") ("Passw0rd!") ("a@b.com") ("") ("")
  have h2 := C8_clean_population_amended ("") ("") ("") ("") ("") 0 0 ("") ("") ("") ("") ("")
    ("John Doe") ("1234567") ("") ("xyz") ("a@b.com") ("") ("")
  exact ⟨h1.2.2.2.2.2.2.2.2.2.2.2.2.1 (by decide),
    h2.2.2.2.2.2.2.2.2.2.2.2.2.2.1 rfl⟩

end EventHub
